import Mathlib

/-!
Shallow embedding of `conways_game_of_life::ConwaysGameOfLife<C, R>`
(src/include/conways_game_of_life/board.hpp).

The C++ class owns two `std::vector<CellState>` buffers of length `C*R`,
a boolean `grid_` selecting which buffer is current (`current_grid_ =
grid_ ? grid1_ : grid2_`, `next_grid_` the other one) and a `pause_` flag.
We model the engine state as a structure carrying the dimensions, the two
buffers as lists, and the two flags.  `std::vector` indexing is modelled
by `List.getD` / `List.set`; all accesses made by the claims are in range,
so the out-of-range default never matters.
-/

namespace CGoL

set_option maxRecDepth 4000

/-- The C++ `enum CellState { ON, OFF }`.  `ON` is alive, `OFF` is dead. -/
inductive CellState where
  | ON
  | OFF
deriving DecidableEq, Repr

/-- Modelled from the spec: `convert_indices` lives in
`conways_game_of_life/util.hpp`, which is not part of the sources; the
spec fixes the layout as a flat row-major sequence "indexed by
`index = x + y*C`". -/
def convert_indices (x y c : Int) : Int := x + y * c

/-- Read a cell of a buffer at a flat index (C++ `(*grid)[index]`).
All reads performed by the claims are in range. -/
def getCell (g : List CellState) (i : Int) : CellState :=
  g.getD i.toNat CellState.OFF

/-- The engine state: template parameters `C`, `R`, the two buffers
`grid1_`/`grid2_`, the buffer-selection flag `grid_` and `pause_`. -/
structure GoL where
  c : Nat
  r : Nat
  grid1 : List CellState
  grid2 : List CellState
  gridFlag : Bool
  pause : Bool
deriving DecidableEq, Repr

/-- `current_grid_ = grid_ ? grid1_ : grid2_`. -/
def currentGrid (s : GoL) : List CellState :=
  if s.gridFlag then s.grid1 else s.grid2

/-- `next_grid_ = grid_ ? grid2_ : grid1_`. -/
def nextGrid (s : GoL) : List CellState :=
  if s.gridFlag then s.grid2 else s.grid1

/-- Writing a new buffer through the `next_grid_` pointer mutates
whichever of `grid1_`/`grid2_` is currently in the next role. -/
def setNext (s : GoL) (g : List CellState) : GoL :=
  if s.gridFlag then { s with grid2 := g } else { s with grid1 := g }

/-- The loop bounds `for (int off = -1; off <= 1; off++)`. -/
def offs : List Int := [-1, 0, 1]

/-- The wrap logic of `countAliveNeighbors`:
`int n = x + off; if (x + off < 0) { n = c - 1; } if (x + off >= c) { n = 0; }`. -/
def wrapCoord (x off c : Int) : Int :=
  let n := x + off
  let n := if x + off < 0 then c - 1 else n
  if x + off ≥ c then 0 else n

/-- `ConwaysGameOfLife::countAliveNeighbors`: iterate over the 3×3 offset
square, skip `(0,0)`, wrap each coordinate, and count `ON` neighbours in
the current buffer. -/
def countAliveNeighbors (c r : Nat) (cur : List CellState) (x y : Int) : Int :=
  offs.foldl (fun alive xOff =>
    let neighborX := wrapCoord x xOff c
    offs.foldl (fun alive yOff =>
      let neighborY := wrapCoord y yOff r
      if xOff = 0 ∧ yOff = 0 then alive
      else
        let neighborIndex := convert_indices neighborX neighborY c
        if getCell cur neighborIndex = CellState.ON then alive + 1 else alive)
      alive)
    0

/-- The per-cell rule of `update`:
`next[i] = cur[i]; if OFF && alive == 3 → ON; else if ON && (alive <= 1 || alive >= 4) → OFF`. -/
def nextCellState (cur : CellState) (alive : Int) : CellState :=
  match cur with
  | CellState.OFF => if alive = 3 then CellState.ON else CellState.OFF
  | CellState.ON => if alive ≤ 1 ∨ 4 ≤ alive then CellState.OFF else CellState.ON

/-- One iteration of the body of `update`'s double loop: write the rule's
result for cell `(x, y)` into the next buffer at `convert_indices(x, y, C)`. -/
def writeCell (c r : Nat) (cur next : List CellState) (x y : Nat) : List CellState :=
  let index := convert_indices x y c
  let alive := countAliveNeighbors c r cur x y
  next.set index.toNat (nextCellState (getCell cur index) alive)

/-- The double loop of `update`: `for (x = 0; x < C; x++) for (y = 0; y < R; y++)`. -/
def updateLoop (c r : Nat) (cur next : List CellState) : List CellState :=
  (List.range c).foldl (fun next x =>
    (List.range r).foldl (fun next y => writeCell c r cur next x y) next) next

/-- `ConwaysGameOfLife::update`: if paused return; otherwise run the double
loop writing the next generation into the next buffer, then flip `grid_`
(which re-designates `current_grid_` and `next_grid_`). -/
def update (s : GoL) : GoL :=
  if s.pause then s
  else
    let s' := setNext s (updateLoop s.c s.r (currentGrid s) (nextGrid s))
    { s' with gridFlag := !s'.gridFlag }

/-- `ConwaysGameOfLife::togglePause`. -/
def togglePause (s : GoL) : GoL := { s with pause := !s.pause }

/-- `ConwaysGameOfLife::getSize`, returning the stored `size_ = (C, R)`. -/
def getSize (s : GoL) : Nat × Nat := (s.c, s.r)

/-- `ConwaysGameOfLife::getGrid`, returning the current buffer. -/
def getGrid (s : GoL) : List CellState := currentGrid s

/-- `ConwaysGameOfLife::setCell`: write `ON` through the `current_grid_`
pointer at `convert_indices(x, y, C)`. -/
def setCell (s : GoL) (x y : Int) : GoL :=
  let index := convert_indices x y s.c
  if s.gridFlag then { s with grid1 := s.grid1.set index.toNat CellState.ON }
  else { s with grid2 := s.grid2.set index.toNat CellState.ON }

/-- `ConwaysGameOfLife::unsetCell`: write `OFF` through the `current_grid_`
pointer at `convert_indices(x, y, C)`. -/
def unsetCell (s : GoL) (x y : Int) : GoL :=
  let index := convert_indices x y s.c
  if s.gridFlag then { s with grid1 := s.grid1.set index.toNat CellState.OFF }
  else { s with grid2 := s.grid2.set index.toNat CellState.OFF }

/-- `ConwaysGameOfLife::clear`: `for (i = 0; i < C*R; i++) { grid1_[i] = OFF; grid2_[i] = OFF; }`. -/
def clear (s : GoL) : GoL :=
  (List.range (s.c * s.r)).foldl
    (fun t i => { t with grid1 := t.grid1.set i CellState.OFF,
                         grid2 := t.grid2.set i CellState.OFF }) s

/-- The constructor: both vectors are value-initialized (`CellState(0)`,
i.e. `ON`, the first enumerator), `pause_ = true`, `grid_ = false`, and
then `clear()` is called to turn every cell `OFF`. -/
def mkGoL (c r : Nat) : GoL :=
  clear { c := c, r := r,
          grid1 := List.replicate (c * r) CellState.ON,
          grid2 := List.replicate (c * r) CellState.ON,
          gridFlag := false, pause := true }

/-- Well-formedness: both buffers have length `C*R`, as every state
reachable through the engine's interface does. -/
abbrev WF (s : GoL) : Prop :=
  s.grid1.length = s.c * s.r ∧ s.grid2.length = s.c * s.r

/-- The 8 neighbour offsets, as enumerated by the spec. -/
def neighborOffsets : List (Int × Int) :=
  [(-1,-1), (-1,0), (-1,1), (0,-1), (0,1), (1,-1), (1,0), (1,1)]

/-- Modelled from the spec: for each of the 8 offsets, the neighbour is
`((x+dx) mod C, (y+dy) mod R)`; count how many are alive. -/
def specNeighborCount (c r : Nat) (g : List CellState) (x y : Int) : Int :=
  List.sum (neighborOffsets.map (fun d =>
    if getCell g (convert_indices ((x + d.1) % (c : Int)) ((y + d.2) % (r : Int)) c)
        = CellState.ON then (1 : Int) else 0))

/-- The grid `g` translated by `(dx, dy)` modulo the dimensions: the cell
at `(x, y)` of the result is the cell at `(x - dx mod c, y - dy mod r)` of `g`. -/
def translateGrid (c r dx dy : Nat) (g : List CellState) : List CellState :=
  (List.range (c * r)).map (fun i =>
    getCell g (convert_indices (((i % c + (c - dx)) % c : Nat))
      (((i / c + (r - dy)) % r : Nat)) c))

/-- A freshly constructed 1×1 board, its single cell set alive, unpaused. -/
def one1 : GoL := togglePause (setCell (mkGoL 1 1) 0 0)

/-- A freshly constructed 1×1 board, unpaused, all cells dead. -/
def empty1 : GoL := togglePause (mkGoL 1 1)

/-- An 8×8 board seeded with the classic 5-cell glider, unpaused. -/
def glider0 : GoL :=
  togglePause (setCell (setCell (setCell (setCell (setCell
    (mkGoL 8 8) 1 0) 2 1) 0 2) 1 2) 2 2)

/-- A 10×10 board seeded with a 2×2 still-life block, unpaused. -/
def block0 : GoL :=
  togglePause (setCell (setCell (setCell (setCell
    (mkGoL 10 10) 4 4) 5 4) 4 5) 5 5)

/-! ### Generic lemmas about folds of `List.set` writes -/

/-- A fold of `set`-writes preserves the length of the buffer. -/
lemma foldl_set_length {α β : Type} (idx : α → Nat) (val : α → β) :
    ∀ (l : List α) (init : List β),
      (l.foldl (fun acc a => acc.set (idx a) (val a)) init).length = init.length := by
  intro l
  induction l with
  | nil => intro init; rfl
  | cons p l ih =>
    intro init
    simp only [List.foldl_cons]
    rw [ih]
    exact List.length_set ..

/-- If no element of the fold writes to position `i`, the buffer is
unchanged there. -/
lemma foldl_set_getElem_of_no_write {α β : Type} (idx : α → Nat) (val : α → β) :
    ∀ (l : List α) (init : List β) (i : Nat), (∀ a ∈ l, idx a ≠ i) →
      (l.foldl (fun acc a => acc.set (idx a) (val a)) init)[i]? = init[i]? := by
  intro l
  induction l with
  | nil => intro init i _; rfl
  | cons p l ih =>
    intro init i h
    simp only [List.foldl_cons]
    rw [ih _ i (fun a ha => h a (List.mem_cons_of_mem _ ha))]
    exact List.getElem?_set_ne (h p (List.mem_cons_self p l))

/-- If exactly one element of the fold writes to position `i`, the buffer
holds that element's value there afterwards. -/
lemma foldl_set_getElem_of_unique_write {α β : Type} (idx : α → Nat) (val : α → β) :
    ∀ (l : List α) (init : List β) (i : Nat) (p : α), p ∈ l → idx p = i →
      i < init.length → (∀ q ∈ l, idx q = i → q = p) →
      (l.foldl (fun acc a => acc.set (idx a) (val a)) init)[i]? = some (val p) := by
  intro l
  induction l with
  | nil => intro init i p hp; simp at hp
  | cons q l ih =>
    intro init i p hp hidx hlen huniq
    simp only [List.foldl_cons]
    by_cases hmem : p ∈ l
    · exact ih _ i p hmem hidx (by simpa [List.length_set] using hlen)
        (fun a ha h2 => huniq a (List.mem_cons_of_mem _ ha) h2)
    · have hpq : p = q := by
        rcases List.mem_cons.mp hp with h | h
        · exact h
        · exact absurd h hmem
      subst hpq
      have hno : ∀ a ∈ l, idx a ≠ i := by
        intro a ha hai
        have hap : a = p := huniq a (List.mem_cons_of_mem _ ha) hai
        rw [hap] at ha
        exact hmem ha
      rw [foldl_set_getElem_of_no_write idx val l _ i hno, hidx]
      exact List.getElem?_set_self hlen

/-- A fold over a `flatMap` is the nested fold. -/
lemma foldl_flatMap {α β γ : Type} (g : α → List β) (f : γ → β → γ) :
    ∀ (l : List α) (b : γ),
      (l.flatMap g).foldl f b = l.foldl (fun b a => (g a).foldl f b) b := by
  intro l
  induction l with
  | nil => intro b; rfl
  | cons p l ih =>
    intro b
    simp only [List.flatMap_cons, List.foldl_append, List.foldl_cons]
    exact ih _

/-- A fold preserves any invariant preserved by each step. -/
lemma foldl_invariant {α β : Type} (P : β → Prop) (f : β → α → β)
    (hstep : ∀ b a, P b → P (f b a)) :
    ∀ (l : List α) (b : β), P b → P (l.foldl f b) := by
  intro l
  induction l with
  | nil => intro b hb; exact hb
  | cons p l ih => intro b hb; exact ih _ (hstep b p hb)

/-! ### The iteration space of `update`'s double loop -/

/-- The coordinates visited by `update`'s double loop, in visit order. -/
def allCoords (c r : Nat) : List (Nat × Nat) :=
  (List.range c).flatMap (fun x => (List.range r).map (fun y => (x, y)))

/-- The flat index written by the loop body at `p`. -/
def cellIdx (c : Nat) (p : Nat × Nat) : Nat :=
  (convert_indices p.1 p.2 c).toNat

/-- The value written by the loop body at `p`. -/
def cellVal (c r : Nat) (cur : List CellState) (p : Nat × Nat) : CellState :=
  nextCellState (getCell cur (convert_indices p.1 p.2 c))
    (countAliveNeighbors c r cur p.1 p.2)

lemma mem_allCoords {c r : Nat} {p : Nat × Nat} :
    p ∈ allCoords c r ↔ p.1 < c ∧ p.2 < r := by
  obtain ⟨x, y⟩ := p
  simp only [allCoords, List.mem_flatMap, List.mem_map, List.mem_range]
  constructor
  · rintro ⟨a, ha, b, hb, hab⟩
    obtain ⟨rfl, rfl⟩ := Prod.mk.injEq .. ▸ hab
    exact ⟨ha, hb⟩
  · rintro ⟨hx, hy⟩
    exact ⟨x, hx, y, hy, rfl⟩

lemma cellIdx_mk (c x y : Nat) : cellIdx c (x, y) = x + y * c := by
  have h : ((x : Int) + (y : Int) * (c : Int)) = ((x + y * c : Nat) : Int) := by
    push_cast
    ring
  simp only [cellIdx, convert_indices, h, Int.toNat_natCast]

lemma updateLoop_eq_foldl (c r : Nat) (cur next : List CellState) :
    updateLoop c r cur next =
      (allCoords c r).foldl
        (fun acc p => acc.set (cellIdx c p) (cellVal c r cur p)) next := by
  rw [updateLoop, allCoords, foldl_flatMap]
  simp only [List.foldl_map]
  rfl

lemma idx_lt {c r x y : Nat} (hx : x < c) (hy : y < r) : x + y * c < c * r :=
  calc x + y * c < c + y * c := by omega
    _ = (y + 1) * c := by ring
    _ ≤ r * c := Nat.mul_le_mul_right c hy
    _ = c * r := Nat.mul_comm r c

lemma idx_inj {c x1 y1 x2 y2 : Nat} (h1 : x1 < c) (h2 : x2 < c)
    (h : x1 + y1 * c = x2 + y2 * c) : x1 = x2 ∧ y1 = y2 := by
  have hc : 0 < c := Nat.lt_of_le_of_lt (Nat.zero_le _) h1
  have e1 : (x1 + y1 * c) % c = x1 := by
    rw [Nat.add_mul_mod_self_right]
    exact Nat.mod_eq_of_lt h1
  have e2 : (x2 + y2 * c) % c = x2 := by
    rw [Nat.add_mul_mod_self_right]
    exact Nat.mod_eq_of_lt h2
  have hx : x1 = x2 := by rw [← e1, ← e2, h]
  refine ⟨hx, ?_⟩
  have hy : y1 * c = y2 * c := by omega
  exact Nat.eq_of_mul_eq_mul_right hc hy

lemma updateLoop_length (c r : Nat) (cur next : List CellState) :
    (updateLoop c r cur next).length = next.length := by
  rw [updateLoop_eq_foldl]
  exact foldl_set_length _ _ _ _

/-- After the double loop, the next buffer holds the rule's value at every
in-range coordinate. -/
lemma updateLoop_getElem (c r : Nat) (cur next : List CellState)
    (hlen : next.length = c * r) {x y : Nat} (hx : x < c) (hy : y < r) :
    (updateLoop c r cur next)[x + y * c]? = some (cellVal c r cur (x, y)) := by
  rw [updateLoop_eq_foldl]
  refine foldl_set_getElem_of_unique_write (cellIdx c) (cellVal c r cur)
    (allCoords c r) next (x + y * c) (x, y) (mem_allCoords.mpr ⟨hx, hy⟩)
    (cellIdx_mk c x y) (by rw [hlen]; exact idx_lt hx hy) ?_
  intro q hq hqi
  obtain ⟨hq1, hq2⟩ := mem_allCoords.mp hq
  obtain ⟨x', y'⟩ := q
  rw [cellIdx_mk] at hqi
  obtain ⟨e1, e2⟩ := idx_inj hq1 hx hqi
  simp only [Prod.mk.injEq]
  exact ⟨e1, e2⟩

/-- The result of the double loop does not depend on the previous contents
of the next buffer: every position is overwritten. -/
lemma updateLoop_indep (c r : Nat) (cur n1 n2 : List CellState)
    (h1 : n1.length = c * r) (h2 : n2.length = c * r) :
    updateLoop c r cur n1 = updateLoop c r cur n2 := by
  refine List.ext_getElem? fun i => ?_
  by_cases hi : i < c * r
  · have hc : 0 < c := by
      rcases Nat.eq_zero_or_pos c with h | h
      · subst h; simp at hi
      · exact h
    have hmx : i % c < c := Nat.mod_lt _ hc
    have hdy : i / c < r := by
      rw [Nat.div_lt_iff_lt_mul hc]
      exact Nat.lt_of_lt_of_le hi (Nat.le_of_eq (Nat.mul_comm c r))
    have hrec : i % c + (i / c) * c = i := by
      rw [Nat.mul_comm]
      exact Nat.mod_add_div i c
    rw [← hrec, updateLoop_getElem c r cur n1 h1 hmx hdy,
      updateLoop_getElem c r cur n2 h2 hmx hdy]
  · rw [List.getElem?_eq_none (by rw [updateLoop_length, h1]; omega),
      List.getElem?_eq_none (by rw [updateLoop_length, h2]; omega)]

/-! ### Characterization of `update`, `clear` and the constructor -/

lemma currentGrid_length {s : GoL} (h : WF s) :
    (currentGrid s).length = s.c * s.r := by
  rw [currentGrid]
  split
  · exact h.1
  · exact h.2

lemma nextGrid_length {s : GoL} (h : WF s) :
    (nextGrid s).length = s.c * s.r := by
  rw [nextGrid]
  split
  · exact h.2
  · exact h.1

lemma update_of_paused {s : GoL} (hp : s.pause = true) : update s = s := by
  rw [update, if_pos hp]

lemma update_currentGrid {s : GoL} (hp : s.pause = false) :
    currentGrid (update s) = updateLoop s.c s.r (currentGrid s) (nextGrid s) := by
  rw [update, if_neg (by rw [hp]; exact Bool.false_ne_true)]
  cases hf : s.gridFlag <;>
    simp [currentGrid, nextGrid, setNext, hf]

lemma update_nextGrid {s : GoL} (hp : s.pause = false) :
    nextGrid (update s) = currentGrid s := by
  rw [update, if_neg (by rw [hp]; exact Bool.false_ne_true)]
  cases hf : s.gridFlag <;>
    simp [currentGrid, nextGrid, setNext, hf]

lemma update_c (s : GoL) : (update s).c = s.c := by
  cases hp : s.pause <;> cases hf : s.gridFlag <;> simp [update, setNext, hp, hf]

lemma update_r (s : GoL) : (update s).r = s.r := by
  cases hp : s.pause <;> cases hf : s.gridFlag <;> simp [update, setNext, hp, hf]

lemma update_pause (s : GoL) : (update s).pause = s.pause := by
  cases hp : s.pause <;> cases hf : s.gridFlag <;> simp [update, setNext, hp, hf]

lemma update_gridFlag {s : GoL} (hp : s.pause = false) :
    (update s).gridFlag = !s.gridFlag := by
  rw [update, if_neg (by rw [hp]; exact Bool.false_ne_true)]
  cases hf : s.gridFlag <;> simp [setNext, hf]

lemma update_WF {s : GoL} (h : WF s) : WF (update s) := by
  cases hp : s.pause
  · have h1 : (currentGrid (update s)).length = s.c * s.r := by
      rw [update_currentGrid hp, updateLoop_length]
      exact nextGrid_length h
    have h2 : (nextGrid (update s)).length = s.c * s.r := by
      rw [update_nextGrid hp]
      exact currentGrid_length h
    have hc := update_c s
    have hr := update_r s
    rw [currentGrid] at h1
    rw [nextGrid] at h2
    constructor
    · rw [hc, hr]
      cases hf : (update s).gridFlag
      · rw [hf] at h2; simpa using h2
      · rw [hf] at h1; simpa using h1
    · rw [hc, hr]
      cases hf : (update s).gridFlag
      · rw [hf] at h1; simpa using h1
      · rw [hf] at h2; simpa using h2
  · rw [update_of_paused hp]
    exact h

/-- `clear` acts componentwise: it folds the `set`-to-`OFF` loop over each
buffer and leaves every other field unchanged. -/
lemma clear_eq (s : GoL) :
    clear s = { s with
      grid1 := (List.range (s.c * s.r)).foldl
        (fun g i => g.set i CellState.OFF) s.grid1,
      grid2 := (List.range (s.c * s.r)).foldl
        (fun g i => g.set i CellState.OFF) s.grid2 } := by
  rw [clear]
  generalize List.range (s.c * s.r) = l
  induction l generalizing s with
  | nil => rfl
  | cons j l ih =>
    simp only [List.foldl_cons]
    rw [ih]

/-- Setting every position of a full-length buffer to `OFF` yields the
all-`OFF` buffer. -/
lemma setAll_replicate {n : Nat} {l : List CellState} (h : l.length = n) :
    (List.range n).foldl (fun g i => g.set i CellState.OFF) l =
      List.replicate n CellState.OFF := by
  refine List.ext_getElem? fun i => ?_
  by_cases hi : i < n
  · have hw : ((List.range n).foldl (fun g i => g.set i CellState.OFF) l)[i]?
        = some CellState.OFF :=
      foldl_set_getElem_of_unique_write (fun j => j) (fun _ => CellState.OFF)
        (List.range n) l i i (List.mem_range.mpr hi) rfl (by omega)
        (fun q _ hq => hq)
    rw [hw, List.getElem?_replicate, if_pos hi]
  · have hw : ((List.range n).foldl (fun g i => g.set i CellState.OFF) l)[i]?
        = l[i]? :=
      foldl_set_getElem_of_no_write (fun j => j) (fun _ => CellState.OFF)
        (List.range n) l i (fun a ha => by
          have h2 := List.mem_range.mp ha
          show a ≠ i
          omega)
    rw [hw, List.getElem?_replicate, if_neg hi,
      List.getElem?_eq_none (by omega)]

lemma clear_grid1 {s : GoL} (h : WF s) :
    (clear s).grid1 = List.replicate (s.c * s.r) CellState.OFF := by
  rw [clear_eq]
  exact setAll_replicate h.1

lemma clear_grid2 {s : GoL} (h : WF s) :
    (clear s).grid2 = List.replicate (s.c * s.r) CellState.OFF := by
  rw [clear_eq]
  exact setAll_replicate h.2

lemma clear_c (s : GoL) : (clear s).c = s.c := by rw [clear_eq]
lemma clear_r (s : GoL) : (clear s).r = s.r := by rw [clear_eq]
lemma clear_pause (s : GoL) : (clear s).pause = s.pause := by rw [clear_eq]
lemma clear_gridFlag (s : GoL) : (clear s).gridFlag = s.gridFlag := by rw [clear_eq]

lemma mkGoL_grid1 (c r : Nat) :
    (mkGoL c r).grid1 = List.replicate (c * r) CellState.OFF := by
  rw [mkGoL, clear_grid1 ⟨List.length_replicate .., List.length_replicate ..⟩]

lemma mkGoL_grid2 (c r : Nat) :
    (mkGoL c r).grid2 = List.replicate (c * r) CellState.OFF := by
  rw [mkGoL, clear_grid2 ⟨List.length_replicate .., List.length_replicate ..⟩]

/-! ### The all-dead grid is preserved by one step -/

lemma getCell_replicate_off {n : Nat} (i : Int) :
    getCell (List.replicate n CellState.OFF) i = CellState.OFF := by
  rw [getCell, List.getD_eq_getElem?_getD, List.getElem?_replicate]
  split <;> rfl

lemma count_replicate_off (c r n : Nat) (x y : Int) :
    countAliveNeighbors c r (List.replicate n CellState.OFF) x y = 0 := by
  simp [countAliveNeighbors, offs, getCell_replicate_off]

lemma updateLoop_all_off (c r n : Nat) :
    updateLoop c r (List.replicate n CellState.OFF)
      (List.replicate (c * r) CellState.OFF) =
      List.replicate (c * r) CellState.OFF := by
  rw [updateLoop_eq_foldl]
  refine foldl_invariant (fun g => g = List.replicate (c * r) CellState.OFF)
    _ ?_ (allCoords c r) _ rfl
  intro g p hg
  rw [hg, cellVal, getCell_replicate_off, count_replicate_off]
  exact List.set_replicate_self

/-! ### The per-cell behaviour of one unpaused step -/

/-- After one unpaused step, the buffer now readable holds exactly the
rule's value at every in-range coordinate. -/
lemma step_cell {s : GoL} (hwf : WF s) (hp : s.pause = false)
    {x y : Nat} (hx : x < s.c) (hy : y < s.r) :
    getCell (currentGrid (update s)) (convert_indices x y s.c) =
      nextCellState (getCell (currentGrid s) (convert_indices x y s.c))
        (countAliveNeighbors s.c s.r (currentGrid s) x y) := by
  rw [update_currentGrid hp]
  have hkey := updateLoop_getElem s.c s.r (currentGrid s) (nextGrid s)
    (nextGrid_length hwf) hx hy
  have htn : (convert_indices x y s.c).toNat = x + y * s.c := cellIdx_mk s.c x y
  rw [getCell, List.getD_eq_getElem?_getD, htn, hkey]
  rfl

/-- The source's single-step wrap agrees with modular reduction for
offsets in `{-1, 0, 1}` and in-range coordinates. -/
lemma wrapCoord_eq_emod {c x o : Int} (hx0 : 0 ≤ x) (hx : x < c)
    (ho : o = -1 ∨ o = 0 ∨ o = 1) :
    wrapCoord x o c = (x + o) % c := by
  rw [wrapCoord]
  rcases ho with ho | ho | ho <;> subst ho
  · by_cases h : x + -1 < 0
    · have hx0' : x = 0 := by omega
      subst hx0'
      rw [if_neg (by omega), if_pos h]
      rw [show (0 : Int) + -1 = (c - 1) + c * -1 by ring,
        Int.add_mul_emod_self_left]
      exact (Int.emod_eq_of_lt (by omega) (by omega)).symm
    · rw [if_neg (by omega), if_neg h]
      exact (Int.emod_eq_of_lt (by omega) (by omega)).symm
  · rw [if_neg (by omega), if_neg (by omega)]
    exact (Int.emod_eq_of_lt (by omega) (by omega)).symm
  · by_cases h : x + 1 ≥ c
    · have hxc : x + 1 = c := by omega
      rw [if_pos h, hxc, Int.emod_self]
    · rw [if_neg h, if_neg (by omega)]
      exact (Int.emod_eq_of_lt (by omega) (by omega)).symm

lemma addIf (P : Prop) [Decidable P] (a : Int) :
    (if P then a + 1 else a) = a + (if P then 1 else 0) := by
  split <;> omega

lemma skipIf (P : Prop) [Decidable P] (a i : Int) :
    (if P then a else a + i) = a + (if P then 0 else i) := by
  split <;> omega

lemma count_eq_specCount {c r : Nat} (g : List CellState) {x y : Nat}
    (hx : x < c) (hy : y < r) :
    countAliveNeighbors c r g x y = specNeighborCount c r g x y := by
  have hx0 : (0 : Int) ≤ x := Int.natCast_nonneg x
  have hy0 : (0 : Int) ≤ y := Int.natCast_nonneg y
  have hxc : (x : Int) < c := by exact_mod_cast hx
  have hyr : (y : Int) < r := by exact_mod_cast hy
  have wxm : wrapCoord x (-1) c = ((x : Int) + -1) % c :=
    wrapCoord_eq_emod hx0 hxc (Or.inl rfl)
  have wx0 : wrapCoord x 0 c = ((x : Int) + 0) % c :=
    wrapCoord_eq_emod hx0 hxc (Or.inr (Or.inl rfl))
  have wxp : wrapCoord x 1 c = ((x : Int) + 1) % c :=
    wrapCoord_eq_emod hx0 hxc (Or.inr (Or.inr rfl))
  have wym : wrapCoord y (-1) r = ((y : Int) + -1) % r :=
    wrapCoord_eq_emod hy0 hyr (Or.inl rfl)
  have wy0 : wrapCoord y 0 r = ((y : Int) + 0) % r :=
    wrapCoord_eq_emod hy0 hyr (Or.inr (Or.inl rfl))
  have wyp : wrapCoord y 1 r = ((y : Int) + 1) % r :=
    wrapCoord_eq_emod hy0 hyr (Or.inr (Or.inr rfl))
  simp only [countAliveNeighbors, offs, specNeighborCount, neighborOffsets,
    List.foldl_cons, List.foldl_nil, List.map_cons, List.map_nil,
    List.sum_cons, List.sum_nil, wxm, wx0, wxp, wym, wy0, wyp,
    addIf, skipIf]
  norm_num
  ring

/-- Writing one cell through the current-grid pointer: the target cell of
the current buffer takes the written value, every other cell and the next
buffer and both flags are unchanged. -/
lemma writeCur_spec (s : GoL) (hwf : WF s) {x y : Nat}
    (hx : x < s.c) (hy : y < s.r) (v : CellState) (t : GoL)
    (ht : t = if s.gridFlag
        then { s with grid1 := s.grid1.set (convert_indices x y s.c).toNat v }
        else { s with grid2 := s.grid2.set (convert_indices x y s.c).toNat v }) :
    getCell (currentGrid t) (convert_indices x y s.c) = v ∧
    (∀ i : Nat, i ≠ x + y * s.c → (currentGrid t)[i]? = (currentGrid s)[i]?) ∧
    nextGrid t = nextGrid s ∧ t.pause = s.pause ∧ t.gridFlag = s.gridFlag := by
  subst ht
  have hidx : (convert_indices x y s.c).toNat = x + y * s.c := cellIdx_mk s.c x y
  have hlt : x + y * s.c < (currentGrid s).length := by
    rw [currentGrid_length hwf]
    exact idx_lt hx hy
  have hcs : currentGrid (if s.gridFlag
      then { s with grid1 := s.grid1.set (convert_indices x y s.c).toNat v }
      else { s with grid2 := s.grid2.set (convert_indices x y s.c).toNat v })
      = (currentGrid s).set (x + y * s.c) v := by
    cases hf : s.gridFlag <;> simp [currentGrid, hf, hidx]
  refine ⟨?_, ?_, ?_, ?_, ?_⟩
  · rw [hcs, getCell, List.getD_eq_getElem?_getD, hidx,
      List.getElem?_set_self hlt]
    rfl
  · intro i hi
    rw [hcs]
    exact List.getElem?_set_ne (fun h => hi h.symm)
  · cases hf : s.gridFlag <;> simp [nextGrid, hf]
  · cases hf : s.gridFlag <;> simp [hf]
  · cases hf : s.gridFlag <;> simp [hf]

/-! ### The claims -/

/-- Claim C1: for every well-formed grid state and in-range cell `(x, y)`,
an unpaused `step()` writes the next state of `(x, y)` into the next
buffer (readable as the current buffer after the swap) by the classic
Conway rules over the 8-neighbour toroidal count: the source's count
equals the spec's toroidal count; a `DEAD` cell becomes `ALIVE` exactly
when the count is 3; an `ALIVE` cell becomes `DEAD` exactly when the
count is ≤ 1 or ≥ 4; in every other case the next state equals the
current state. -/
theorem C1_step_writes_rule (s : GoL) (hwf : WF s) (hp : s.pause = false)
    (x y : Nat) (hx : x < s.c) (hy : y < s.r) :
    countAliveNeighbors s.c s.r (currentGrid s) x y
        = specNeighborCount s.c s.r (currentGrid s) x y ∧
    (getCell (currentGrid s) (convert_indices x y s.c) = CellState.OFF →
      (getCell (currentGrid (update s)) (convert_indices x y s.c) = CellState.ON ↔
        countAliveNeighbors s.c s.r (currentGrid s) x y = 3)) ∧
    (getCell (currentGrid s) (convert_indices x y s.c) = CellState.ON →
      (getCell (currentGrid (update s)) (convert_indices x y s.c) = CellState.OFF ↔
        (countAliveNeighbors s.c s.r (currentGrid s) x y ≤ 1 ∨
          4 ≤ countAliveNeighbors s.c s.r (currentGrid s) x y))) ∧
    ((getCell (currentGrid s) (convert_indices x y s.c) = CellState.OFF →
        countAliveNeighbors s.c s.r (currentGrid s) x y ≠ 3) →
      (getCell (currentGrid s) (convert_indices x y s.c) = CellState.ON →
        ¬(countAliveNeighbors s.c s.r (currentGrid s) x y ≤ 1 ∨
          4 ≤ countAliveNeighbors s.c s.r (currentGrid s) x y)) →
      getCell (currentGrid (update s)) (convert_indices x y s.c)
        = getCell (currentGrid s) (convert_indices x y s.c)) := by
  have hstep := step_cell hwf hp hx hy
  refine ⟨count_eq_specCount _ hx hy, ?_, ?_, ?_⟩
  · intro hcur
    rw [hstep, hcur]
    simp only [nextCellState]
    split_ifs with h3 <;> simp [h3]
  · intro hcur
    rw [hstep, hcur]
    simp only [nextCellState]
    split_ifs with hd <;> simp [hd]
  · intro hb hd
    rw [hstep]
    cases hcur : getCell (currentGrid s) (convert_indices x y s.c)
    · simp only [nextCellState]
      rw [if_neg (hd hcur)]
    · simp only [nextCellState]
      rw [if_neg (hb hcur)]

/-- Witness for C1 at the unpaused live 1×1 board, cell `(0, 0)`. -/
theorem C1_step_writes_rule_witness :
    WF one1 ∧ one1.pause = false ∧ 0 < one1.c ∧ 0 < one1.r ∧
    (countAliveNeighbors one1.c one1.r (currentGrid one1) 0 0
        = specNeighborCount one1.c one1.r (currentGrid one1) 0 0 ∧
    (getCell (currentGrid one1) (convert_indices 0 0 one1.c) = CellState.OFF →
      (getCell (currentGrid (update one1)) (convert_indices 0 0 one1.c) = CellState.ON ↔
        countAliveNeighbors one1.c one1.r (currentGrid one1) 0 0 = 3)) ∧
    (getCell (currentGrid one1) (convert_indices 0 0 one1.c) = CellState.ON →
      (getCell (currentGrid (update one1)) (convert_indices 0 0 one1.c) = CellState.OFF ↔
        (countAliveNeighbors one1.c one1.r (currentGrid one1) 0 0 ≤ 1 ∨
          4 ≤ countAliveNeighbors one1.c one1.r (currentGrid one1) 0 0))) ∧
    ((getCell (currentGrid one1) (convert_indices 0 0 one1.c) = CellState.OFF →
        countAliveNeighbors one1.c one1.r (currentGrid one1) 0 0 ≠ 3) →
      (getCell (currentGrid one1) (convert_indices 0 0 one1.c) = CellState.ON →
        ¬(countAliveNeighbors one1.c one1.r (currentGrid one1) 0 0 ≤ 1 ∨
          4 ≤ countAliveNeighbors one1.c one1.r (currentGrid one1) 0 0)) →
      getCell (currentGrid (update one1)) (convert_indices 0 0 one1.c)
        = getCell (currentGrid one1) (convert_indices 0 0 one1.c))) :=
  ⟨by decide, by decide, by decide, by decide,
    C1_step_writes_rule one1 (by decide) (by decide) 0 0 (by decide) (by decide)⟩

/-- Claim C2: if the paused flag is true, `step()` changes nothing at
all: the state, both buffers and the buffer roles included, is unchanged. -/
theorem C2_paused_step_noop (s : GoL) (hp : s.pause = true) : update s = s :=
  update_of_paused hp

/-- Witness for C2 at a freshly constructed (hence paused) 2×2 board. -/
theorem C2_paused_step_noop_witness :
    (mkGoL 2 2).pause = true ∧ update (mkGoL 2 2) = mkGoL 2 2 :=
  ⟨by decide, C2_paused_step_noop _ (by decide)⟩

/-- Claim C3: `clear()` sets every cell of both buffers to `DEAD`, and an
unpaused `step()` right after `clear()` leaves the readable grid entirely
`DEAD`. -/
theorem C3_clear_then_step_all_dead (s : GoL) (hwf : WF s) (hp : s.pause = false) :
    (clear s).grid1 = List.replicate (s.c * s.r) CellState.OFF ∧
    (clear s).grid2 = List.replicate (s.c * s.r) CellState.OFF ∧
    currentGrid (update (clear s)) = List.replicate (s.c * s.r) CellState.OFF := by
  refine ⟨clear_grid1 hwf, clear_grid2 hwf, ?_⟩
  have hpc : (clear s).pause = false := by rw [clear_pause, hp]
  have hcur : currentGrid (clear s) = List.replicate (s.c * s.r) CellState.OFF := by
    rw [currentGrid]
    split
    · exact clear_grid1 hwf
    · exact clear_grid2 hwf
  have hnext : nextGrid (clear s) = List.replicate (s.c * s.r) CellState.OFF := by
    rw [nextGrid]
    split
    · exact clear_grid2 hwf
    · exact clear_grid1 hwf
  rw [update_currentGrid hpc, hcur, hnext, clear_c, clear_r]
  exact updateLoop_all_off s.c s.r (s.c * s.r)

/-- Witness for C3 at the unpaused glider board. -/
theorem C3_clear_then_step_all_dead_witness :
    WF glider0 ∧ glider0.pause = false ∧
    ((clear glider0).grid1
        = List.replicate (glider0.c * glider0.r) CellState.OFF ∧
      (clear glider0).grid2
        = List.replicate (glider0.c * glider0.r) CellState.OFF ∧
      currentGrid (update (clear glider0))
        = List.replicate (glider0.c * glider0.r) CellState.OFF) :=
  ⟨by decide, by decide, C3_clear_then_step_all_dead glider0 (by decide) (by decide)⟩

/-- Claim C4: immediately after construction with positive dimensions,
every cell of both `C*R`-cell buffers is `DEAD`, the engine is paused,
and `getSize()` returns exactly `(C, R)` (it is a pure projection of the
state, with no effect on it). -/
theorem C4_construction_init (c r : Nat) (_hc : 0 < c) (_hr : 0 < r) :
    (mkGoL c r).grid1 = List.replicate (c * r) CellState.OFF ∧
    (mkGoL c r).grid2 = List.replicate (c * r) CellState.OFF ∧
    (mkGoL c r).grid1.length = c * r ∧
    (mkGoL c r).grid2.length = c * r ∧
    (mkGoL c r).pause = true ∧
    getSize (mkGoL c r) = (c, r) := by
  refine ⟨mkGoL_grid1 c r, mkGoL_grid2 c r, ?_, ?_, ?_, ?_⟩
  · rw [mkGoL_grid1, List.length_replicate]
  · rw [mkGoL_grid2, List.length_replicate]
  · rw [mkGoL, clear_pause]
  · rw [getSize, mkGoL, clear_c, clear_r]

/-- Witness for C4 at dimensions 2×3. -/
theorem C4_construction_init_witness :
    0 < 2 ∧ 0 < 3 ∧
    ((mkGoL 2 3).grid1 = List.replicate (2 * 3) CellState.OFF ∧
      (mkGoL 2 3).grid2 = List.replicate (2 * 3) CellState.OFF ∧
      (mkGoL 2 3).grid1.length = 2 * 3 ∧
      (mkGoL 2 3).grid2.length = 2 * 3 ∧
      (mkGoL 2 3).pause = true ∧
      getSize (mkGoL 2 3) = (2, 3)) :=
  ⟨by decide, by decide, C4_construction_init 2 3 (by decide) (by decide)⟩

/-- Claim C5: for every in-range `(x, y)`, `setCell` makes the cell at
`(x, y)` of the current buffer `ALIVE` and `unsetCell` makes it `DEAD`,
and in both cases every other cell of the current buffer, the whole next
buffer, the paused flag and the buffer roles are unchanged. -/
theorem C5_set_unset_frame (s : GoL) (hwf : WF s) (x y : Nat)
    (hx : x < s.c) (hy : y < s.r) :
    (getCell (currentGrid (setCell s x y)) (convert_indices x y s.c)
        = CellState.ON ∧
      (∀ i : Nat, i ≠ x + y * s.c →
        (currentGrid (setCell s x y))[i]? = (currentGrid s)[i]?) ∧
      nextGrid (setCell s x y) = nextGrid s ∧
      (setCell s x y).pause = s.pause ∧
      (setCell s x y).gridFlag = s.gridFlag) ∧
    (getCell (currentGrid (unsetCell s x y)) (convert_indices x y s.c)
        = CellState.OFF ∧
      (∀ i : Nat, i ≠ x + y * s.c →
        (currentGrid (unsetCell s x y))[i]? = (currentGrid s)[i]?) ∧
      nextGrid (unsetCell s x y) = nextGrid s ∧
      (unsetCell s x y).pause = s.pause ∧
      (unsetCell s x y).gridFlag = s.gridFlag) :=
  ⟨writeCur_spec s hwf hx hy CellState.ON (setCell s x y) rfl,
   writeCur_spec s hwf hx hy CellState.OFF (unsetCell s x y) rfl⟩

/-- Witness for C5 at the fresh 2×3 board, cell `(1, 2)`. -/
theorem C5_set_unset_frame_witness :
    WF (mkGoL 2 3) ∧ 1 < (mkGoL 2 3).c ∧ 2 < (mkGoL 2 3).r ∧
    ((getCell (currentGrid (setCell (mkGoL 2 3) 1 2))
          (convert_indices 1 2 (mkGoL 2 3).c) = CellState.ON ∧
      (∀ i : Nat, i ≠ 1 + 2 * (mkGoL 2 3).c →
        (currentGrid (setCell (mkGoL 2 3) 1 2))[i]?
          = (currentGrid (mkGoL 2 3))[i]?) ∧
      nextGrid (setCell (mkGoL 2 3) 1 2) = nextGrid (mkGoL 2 3) ∧
      (setCell (mkGoL 2 3) 1 2).pause = (mkGoL 2 3).pause ∧
      (setCell (mkGoL 2 3) 1 2).gridFlag = (mkGoL 2 3).gridFlag) ∧
    (getCell (currentGrid (unsetCell (mkGoL 2 3) 1 2))
          (convert_indices 1 2 (mkGoL 2 3).c) = CellState.OFF ∧
      (∀ i : Nat, i ≠ 1 + 2 * (mkGoL 2 3).c →
        (currentGrid (unsetCell (mkGoL 2 3) 1 2))[i]?
          = (currentGrid (mkGoL 2 3))[i]?) ∧
      nextGrid (unsetCell (mkGoL 2 3) 1 2) = nextGrid (mkGoL 2 3) ∧
      (unsetCell (mkGoL 2 3) 1 2).pause = (mkGoL 2 3).pause ∧
      (unsetCell (mkGoL 2 3) 1 2).gridFlag = (mkGoL 2 3).gridFlag)) :=
  ⟨by decide, by decide, by decide,
    C5_set_unset_frame (mkGoL 2 3) (by decide) 1 2 (by decide) (by decide)⟩

/-- Claim C6: on a 1×1 grid whose single cell is `ALIVE`, the toroidal
neighbour count of that cell is 8, and one unpaused `step()` therefore
kills it by the death rule. -/
theorem C6_torus_1x1 :
    getCell (currentGrid one1) (convert_indices 0 0 1) = CellState.ON ∧
    countAliveNeighbors 1 1 (currentGrid one1) 0 0 = 8 ∧
    getCell (currentGrid (update one1)) (convert_indices 0 0 1) = CellState.OFF := by
  decide

/-- Claim C7: on an 8×8 torus seeded with the classic 5-cell glider,
after exactly 4 unpaused steps the grid equals the initial grid
translated by `(1, 1)` modulo the dimensions. -/
theorem C7_glider_shift :
    currentGrid ((update)^[4] glider0) = translateGrid 8 8 1 1 (currentGrid glider0) := by
  decide

/-- Auxiliary invariant for the 2×2 block: dimensions, well-formedness,
the unpaused flag and the block grid are preserved by every step. -/
lemma block_step_aux (n : Nat) :
    ((update)^[n] block0).c = 10 ∧ ((update)^[n] block0).r = 10 ∧
    WF ((update)^[n] block0) ∧ ((update)^[n] block0).pause = false ∧
    currentGrid ((update)^[n] block0) = currentGrid block0 := by
  induction n with
  | zero =>
    rw [Function.iterate_zero_apply]
    exact ⟨by decide, by decide, by decide, by decide, rfl⟩
  | succ n ih =>
    obtain ⟨hc, hr, hwf, hp, hcur⟩ := ih
    rw [Function.iterate_succ_apply']
    refine ⟨by rw [update_c, hc], by rw [update_r, hr], update_WF hwf,
      by rw [update_pause, hp], ?_⟩
    rw [update_currentGrid hp, hc, hr, hcur]
    have h1 : (nextGrid ((update)^[n] block0)).length = 10 * 10 := by
      rw [nextGrid_length hwf, hc, hr]
    have h2 : (currentGrid block0).length = 10 * 10 := by decide
    rw [updateLoop_indep 10 10 (currentGrid block0) _ _ h1 h2]
    decide

/-- Claim C8: the 10×10 grid whose only `ALIVE` cells form a 2×2 block
is a fixed point of `step()`: after any number of unpaused steps the
readable grid is unchanged. -/
theorem C8_block_fixed (n : Nat) :
    currentGrid ((update)^[n] block0) = currentGrid block0 :=
  (block_step_aux n).2.2.2.2

/-- Counterexample to claim C9 as stated: on the unpaused empty 1×1
board, after two `step()` calls the buffer object that was current
before the first call is NOT in the next role (it is current again): the
selection flag has returned to its initial value rather than flipped. -/
theorem C9_counterexample :
    ¬ ((update (update empty1)).gridFlag = !empty1.gridFlag) := by
  decide

/-- Claim C9 (amended): after two successive unpaused `step()` calls the
buffer selection flag, and with it the current/next role assignment of
the two buffer objects, returns to its pre-step value: role parity
returns after any even number of steps. -/
theorem C9_role_parity (s : GoL) (hp : s.pause = false) :
    (update (update s)).gridFlag = s.gridFlag := by
  have hp2 : (update s).pause = false := by rw [update_pause, hp]
  rw [update_gridFlag hp2, update_gridFlag hp, Bool.not_not]

/-- Witness for the amended C9 at the unpaused empty 1×1 board. -/
theorem C9_role_parity_witness :
    empty1.pause = false ∧ (update (update empty1)).gridFlag = empty1.gridFlag :=
  ⟨by decide, C9_role_parity empty1 (by decide)⟩

/-- Claim C10: an unpaused `step()` never writes into the buffer that is
current at entry: after the swap, the buffer now in the next role holds
exactly the pre-step current contents, cell for cell. -/
theorem C10_entry_current_untouched (s : GoL) (hp : s.pause = false) :
    nextGrid (update s) = currentGrid s :=
  update_nextGrid hp

/-- Witness for C10 at the unpaused glider board. -/
theorem C10_entry_current_untouched_witness :
    glider0.pause = false ∧ nextGrid (update glider0) = currentGrid glider0 :=
  ⟨by decide, C10_entry_current_untouched glider0 (by decide)⟩

end CGoL
